import Mathlib

/-!
Shallow embedding of the Web-Scraper backend (src/backend/scraper.py and
src/backend/app.py) together with proofs about the components named by the
specification: retry execution, proxy rotation and health scoring,
deduplication, pagination planning, item-mode container extraction, the
orchestrator run loop, and the job-submission validation of the HTTP layer.

External effects (network fetches, selector engines, hashing) are modelled as
explicit parameters: a page fetch becomes an outcome value, a selector
evaluation becomes a function into `Except`, and the md5 digest becomes an
arbitrary string function.  The control flow around those parameters is
translated line by line from the Python source.
-/

namespace Scraper

/-- Counters of `class ScrapingStats` (scraper.py 69-81) that the claims talk
about.  The remaining counters (`total_items`, `images_downloaded`, the
timestamps) play no role in the verified properties and are omitted. -/
structure ScrapingStats where
  total_pages : Nat
  successful_pages : Nat
  failed_pages : Nat
deriving DecidableEq

/-! ### RetryHandler (scraper.py 105-128) -/

/-- Loop body of `RetryHandler.execute`.  `op i` is the outcome of the
`(i+1)`-th invocation of the wrapped operation, `r` the number of attempts
still allowed and `last` the last caught exception.  The result is paired
with the number of invocations performed.  When the attempt budget is
exhausted the function re-raises `last` (`Except.error none` models Python's
`raise None` for a zero attempt budget). -/
def RetryHandler.executeAux {E A : Type} (op : Nat → Except E A) :
    Nat → Nat → Option E → Except (Option E) A × Nat
  | _, 0, last => (Except.error last, 0)
  | i, r + 1, _last =>
    match op i with
    | Except.ok a => (Except.ok a, 1)
    | Except.error e =>
      let rest := RetryHandler.executeAux op (i + 1) r (some e)
      (rest.1, rest.2 + 1)

/-- `RetryHandler.execute(func)` with `max_retries` total attempts
(scraper.py 112-128): run `op`, retry on failure, and after `max_retries`
failures re-raise the last exception.  The backoff sleeps do not affect the
value and are not modelled. -/
def RetryHandler.execute {E A : Type} (op : Nat → Except E A) (max_retries : Nat) :
    Except (Option E) A × Nat :=
  RetryHandler.executeAux op 0 max_retries none

/-! ### ProxyManager (scraper.py 148-195) -/

/-- Round-robin state of `ProxyManager`: the ordered pool and the cursor. -/
structure ProxyManager where
  proxies : List String
  current_proxy_index : Nat
deriving DecidableEq

/-- `ProxyManager.get_proxy` (scraper.py 157-168): `None` for an empty pool,
otherwise the proxy at the cursor as the `{'http': p, 'https': p}` dict
(modelled as a pair) with the cursor advanced modulo the pool size.  The
`getD` default is never reached: the cursor stays below the pool length. -/
def ProxyManager.get_proxy (m : ProxyManager) : Option (String × String) × ProxyManager :=
  if m.proxies.isEmpty then (none, m)
  else
    let proxy := m.proxies.getD m.current_proxy_index ""
    (some (proxy, proxy),
      { m with current_proxy_index := (m.current_proxy_index + 1) % m.proxies.length })

/-- State of the proxy manager after `k` calls to `get_proxy`. -/
def ProxyManager.afterCalls (m : ProxyManager) : Nat → ProxyManager
  | 0 => m
  | k + 1 => (ProxyManager.afterCalls m k).get_proxy.2

/-- Value returned by the `k`-th call to `get_proxy` (1-indexed). -/
def ProxyManager.nthCall (m : ProxyManager) (k : Nat) : Option (String × String) :=
  (ProxyManager.afterCalls m (k - 1)).get_proxy.1

/-- Per-proxy health counters (the `proxy_health` dict values,
scraper.py 153-154). -/
structure ProxyHealth where
  success : Nat
  failures : Nat
deriving DecidableEq

/-- Initial health table built in `ProxyManager.__init__`: every proxy of the
pool mapped to zero counters, in pool order. -/
def initHealth (proxies : List String) : List (String × ProxyHealth) :=
  proxies.map (fun p => (p, ⟨0, 0⟩))

/-- Dictionary lookup in the health table.  `get_healthiest` only looks up
proxies of the pool, which are always present, so the default is never
reached. -/
def healthLookup (h : List (String × ProxyHealth)) (p : String) : ProxyHealth :=
  ((h.find? (fun q => q.1 == p)).map Prod.snd).getD ⟨0, 0⟩

/-- `ProxyManager.mark_success` (scraper.py 170-173). -/
def mark_success (h : List (String × ProxyHealth)) (p : String) :
    List (String × ProxyHealth) :=
  h.map (fun q => if q.1 = p then (q.1, ⟨q.2.success + 1, q.2.failures⟩) else q)

/-- `ProxyManager.mark_failure` (scraper.py 175-178). -/
def mark_failure (h : List (String × ProxyHealth)) (p : String) :
    List (String × ProxyHealth) :=
  h.map (fun q => if q.1 = p then (q.1, ⟨q.2.success, q.2.failures + 1⟩) else q)

/-- Health score `health['success'] - health['failures'] * 2`
(scraper.py 190). -/
def score (h : ProxyHealth) : Int :=
  (h.success : Int) - (h.failures : Int) * 2

/-- Loop of `get_healthiest` (scraper.py 185-193): fold over the pool keeping
the best proxy and its score.  The accumulator `none` models the initial
`best_proxy = None, best_score = float('-inf')`; any score beats `-inf`, and
the update condition is the strict `score > best_score`. -/
def healthiestLoop (sc : String → Int) : List String → Option (String × Int) → Option (String × Int)
  | [], best => best
  | p :: rest, best =>
    match best with
    | none => healthiestLoop sc rest (some (p, sc p))
    | some (b, s) =>
      if s < sc p then healthiestLoop sc rest (some (p, sc p))
      else healthiestLoop sc rest (some (b, s))

/-- `ProxyManager.get_healthiest` (scraper.py 180-195). -/
def ProxyManager.get_healthiest (proxies : List String) (h : List (String × ProxyHealth)) :
    Option String :=
  if proxies.isEmpty then none
  else (healthiestLoop (fun p => score (healthLookup h p)) proxies none).map Prod.fst

/-- Binary choice the `get_healthiest` loop makes at each step: keep the
current best unless the candidate scores strictly higher. -/
def pick (sc : String → Int) (b p : String) : String :=
  if sc b < sc p then p else b

/-! ### Deduplicator (scraper.py 520-533) -/

/-- Key order used by `json.dumps(data, sort_keys=True)`: lexicographic
comparison of the key code points, modelled on the underlying character
lists (Lean's `String` order is not kernel-reducible, its `List Char`
order is). -/
def keyLe (a b : String × String) : Prop :=
  a.1.data ≤ b.1.data

instance : DecidableRel keyLe :=
  fun a b => inferInstanceAs (Decidable (a.1.data ≤ b.1.data))

/-- Strict version of `keyLe`, used to turn sortedness plus key distinctness
into uniqueness of the sorted form. -/
def keyLt (a b : String × String) : Prop :=
  a.1.data < b.1.data

instance : IsTotal (String × String) keyLe :=
  ⟨fun a b => le_total a.1.data b.1.data⟩

instance : IsTrans (String × String) keyLe :=
  ⟨fun _ _ _ h1 h2 => le_trans h1 h2⟩

instance : IsAntisymm (String × String) keyLt :=
  ⟨fun _ _ h1 h2 => absurd (lt_trans h1 h2) (lt_irrefl _)⟩

/-- Serialization of one record entry inside `json.dumps`: `"key": "value"`
(keys and values are taken escape-free). -/
def dumpsPair (kv : String × String) : String :=
  "\"" ++ kv.1 ++ "\": \"" ++ kv.2 ++ "\""

/-- `json.dumps(data, sort_keys=True)` for a flat string-valued record
(scraper.py 526): the key-sorted entries joined by ", " inside braces. -/
def jsonDumpsSorted (record : List (String × String)) : String :=
  "\x7b" ++ String.intercalate ", " ((List.insertionSort keyLe record).map dumpsPair) ++ "\x7d"

/-- Deduplicator state: the `incremental` flag and the `data_hash` set of
seen digests (scraper.py 287-288), the set modelled as a list. -/
structure Dedup where
  incremental : Bool
  data_hash : List String
deriving DecidableEq

/-- `WebScraper.is_duplicate` (scraper.py 520-533).  `md5` stands for the
`hashlib.md5(...).hexdigest()` digest function, opaque to the model. -/
def is_duplicate (md5 : String → String) (d : Dedup) (data : List (String × String)) :
    Bool × Dedup :=
  if d.incremental = false then (false, d)
  else
    let data_hash := md5 (jsonDumpsSorted data)
    if data_hash ∈ d.data_hash then (true, d)
    else (false, { d with data_hash := data_hash :: d.data_hash })

/-! ### PaginationPlanner (scraper.py 496-518) and the URL helpers it uses

The Python code goes through `urllib.parse`: `urlparse`, `parse_qs` (with its
default `keep_blank_values=False`), `urlencode(..., doseq=True)`.  These are
re-implemented here for the plain `scheme://netloc/path?query#fragment` shape,
without percent-encoding, on explicit character lists so that concrete
instances evaluate inside the kernel. -/

/-- Splitting of a character list at every occurrence of a separator
character; `acc` holds the current chunk reversed. -/
def splitCharCore (sep : Char) : List Char → List Char → List (List Char)
  | [], acc => [acc.reverse]
  | c :: cs, acc =>
    if c == sep then acc.reverse :: splitCharCore sep cs []
    else splitCharCore sep cs (c :: acc)

/-- String splitting on a one-character separator, as `str.split(sep)`. -/
def splitChar (sep : Char) (s : String) : List String :=
  (splitCharCore sep s.data []).map (fun l => String.mk l)

/-- Joining with a separator, as `sep.join(parts)`. -/
def joinStr (sep : String) : List String → String
  | [] => ""
  | [x] => x
  | x :: y :: xs => x ++ sep ++ joinStr sep (y :: xs)

/-- Splitting at the first occurrence of "://": returns the scheme characters
and the remainder, or `none` when the marker is absent. -/
def splitSchemeCore : List Char → Option (List Char × List Char)
  | [] => none
  | ':' :: '/' :: '/' :: rest => some ([], rest)
  | c :: cs =>
    match splitSchemeCore cs with
    | some (sch, rest) => some (c :: sch, rest)
    | none => none

/-- Components of a parsed URL as used by `get_pagination_urls`:
`scheme`, `netloc`, `path` and the raw query string. -/
structure ParsedUrl where
  scheme : String
  netloc : String
  path : String
  query : String
deriving DecidableEq

/-- `urllib.parse.urlparse` restricted to `scheme://netloc/path?query#frag`
URLs: the fragment is cut off, the scheme split at "://", the netloc runs to
the first "/", the query follows the first "?". -/
def urlparse (u : String) : ParsedUrl :=
  let noFrag := (splitChar '#' u).headD ""
  match splitSchemeCore noFrag.data with
  | none =>
    let qparts := splitChar '?' noFrag
    { scheme := "", netloc := "", path := qparts.headD "", query := joinStr "?" qparts.tail }
  | some (sch, rest) =>
    let qparts := splitChar '?' (String.mk rest)
    let beforeQ := qparts.headD ""
    let query := joinStr "?" qparts.tail
    let segs := splitChar '/' beforeQ
    { scheme := String.mk sch
      netloc := segs.headD ""
      path := if segs.tail.isEmpty then "" else "/" ++ joinStr "/" segs.tail
      query := query }

/-- `urllib.parse.parse_qsl` with its defaults: split the query on "&", each
part at the first "=", and drop pairs whose value is blank
(`keep_blank_values=False`). -/
def parseQsl (qs : String) : List (String × String) :=
  (splitChar '&' qs).filterMap (fun part =>
    let kv := splitChar '=' part
    let k := kv.headD ""
    let v := joinStr "=" kv.tail
    if v = "" then none else some (k, v))

/-- One step of grouping `parse_qsl` pairs into the `parse_qs` dict: append
the value to an existing key's list, else add the key at the end (Python
dicts keep insertion order). -/
def insertPair (acc : List (String × List String)) (kv : String × String) :
    List (String × List String) :=
  if acc.any (fun g => g.1 == kv.1) then
    acc.map (fun g => if g.1 = kv.1 then (g.1, g.2 ++ [kv.2]) else g)
  else acc ++ [(kv.1, [kv.2])]

/-- `urllib.parse.parse_qs` of a query string: grouped key/value-list pairs in
insertion order. -/
def parse_qs (qs : String) : List (String × List String) :=
  (parseQsl qs).foldl insertPair []

/-- Dict assignment `query[param_name] = [str(page)]` (scraper.py 511):
replace the value list of an existing key in place, else append the key. -/
def setParam (q : List (String × List String)) (param : String) (vs : List String) :
    List (String × List String) :=
  if q.any (fun g => g.1 == param) then
    q.map (fun g => if g.1 = param then (g.1, vs) else g)
  else q ++ [(param, vs)]

/-- `urllib.parse.urlencode(query, doseq=True)`: one `key=value` chunk per
value, joined with "&". -/
def urlencode (q : List (String × List String)) : String :=
  joinStr "&" (q.flatMap (fun g => g.2.map (fun v => g.1 ++ "=" ++ v)))

/-- Construction of one query-mode pagination URL (scraper.py 509-514). -/
def queryPageUrl (base_url : String) (param : String) (page : Nat) : String :=
  let parsed := urlparse base_url
  let new_query := urlencode (setParam (parse_qs parsed.query) param [toString page])
  parsed.scheme ++ "://" ++ parsed.netloc ++ parsed.path ++ "?" ++ new_query

/-- Python's `base_url.rstrip('/')`: every trailing slash removed. -/
def rstripSlash (s : String) : String :=
  String.mk (s.data.reverse.dropWhile (fun c => c == '/')).reverse

/-- Construction of one path-mode pagination URL (scraper.py 516). -/
def pathPageUrl (base_url : String) (page : Nat) : String :=
  rstripSlash base_url ++ "/page/" ++ toString page

/-- Pagination configuration (the `pagination` dict with the defaults read in
scraper.py 502-505).  An absent or empty dict is modelled as `none` at the
`get_pagination_urls` call. -/
structure PaginationConfig where
  type : String
  startPage : Nat
  endPage : Nat
  paramName : String
deriving DecidableEq

/-- `WebScraper.get_pagination_urls` (scraper.py 496-518): `[base_url]`
without a pagination config, otherwise one URL per page in
`range(start_page, end_page + 1)`, built per the configured type; an
unknown type contributes no URLs. -/
def get_pagination_urls (pagination_config : Option PaginationConfig) (base_url : String) :
    List String :=
  match pagination_config with
  | none => [base_url]
  | some cfg =>
    (List.range' cfg.startPage (cfg.endPage + 1 - cfg.startPage)).flatMap (fun page =>
      if cfg.type = "query" then [queryPageUrl base_url cfg.paramName page]
      else if cfg.type = "path" then [pathPageUrl base_url page]
      else [])

/-- Keys occurring in a raw query string, blank-valued parameters included:
the part before the first "=" of every "&"-chunk.  Used to talk about "the
query parameters of the base URL" independently of `parse_qs`'s dropping of
blank values. -/
def rawQueryKeys (qs : String) : List String :=
  (splitChar '&' qs).map (fun part => (splitChar '=' part).headD "")

/-! ### Item-mode field extraction (scraper.py 629-704)

One container's record is built by looping over the configured field
selectors.  The selector engines themselves (BeautifulSoup's `select`, lxml's
`xpath`) are outside the model: `ev f` stands for the value computation of
field `f` against the current container — `Except.ok v` when it produces a
value (the empty string when nothing matched, URL-joined for link
attributes), `Except.error` when the selector evaluation raises.

The error handling is translated from the source's nesting: a CSS-dialect
evaluation error escapes to the outer `except` of the field loop
(scraper.py 698-704), where a required field discards the whole record and a
non-required one falls back to the empty string; an xpath-dialect evaluation
error is caught by the inner `except` (scraper.py 670-672), which turns it
into an empty match list, hence the empty string, before the required check
can ever see it. -/

/-- Selector dialect of a field (`'css'` or `'xpath'` in the config). -/
inductive Dialect where
  | css : Dialect
  | xpath : Dialect
deriving DecidableEq

/-- One entry of the `fieldSelectors` config list (scraper.py 630-634).  The
optional `attribute` only shapes the value computation inside `ev` and is not
carried separately. -/
structure FieldSpec where
  name : String
  selector : String
  dialect : Dialect
  required : Bool
deriving DecidableEq

/-- Body of the per-field loop for one container (scraper.py 629-704).  The
accumulator is the record built so far, `none` once the record has been
discarded (`item_data = None` after a required CSS field failed, the loop is
then broken out of — modelled by keeping `none` absorbing). -/
def fieldStep (ev : FieldSpec → Except Unit String) (acc : Option (List (String × String)))
    (f : FieldSpec) : Option (List (String × String)) :=
  match acc with
  | none => none
  | some r =>
    if f.selector = "" then some r
    else
      match f.dialect, ev f with
      | _, Except.ok v => some (r ++ [(f.name, v)])
      | Dialect.css, Except.error _ =>
        if f.required then none else some (r ++ [(f.name, "")])
      | Dialect.xpath, Except.error _ => some (r ++ [(f.name, "")])

/-- Record for one container: the built-in entries (`item_index`, `url`,
`scraped_at`, scraper.py 614-618) followed by the field loop; `none` when the
record was discarded. -/
def extract_item_fields (builtins : List (String × String)) (fields : List FieldSpec)
    (ev : FieldSpec → Except Unit String) : Option (List (String × String)) :=
  fields.foldl (fieldStep ev) (some builtins)

/-! ### Dual-tree container alignment (scraper.py 570-596)

For a CSS container selector the BeautifulSoup list is authoritative; the
lxml list obtained from the translated XPath is padded with `None` while it
is shorter and then truncated to the BeautifulSoup length, and a failing
XPath evaluation yields all-`None` placeholders instead of an exception. -/

/-- Alignment of the lxml container list to the native CSS container list
(scraper.py 589-596).  `containers_bs4` is the native list, `xr` the outcome
of evaluating the translated XPath (`Except.error` when `tree.xpath`
raises). -/
def alignContainers {α β : Type} (containers_bs4 : List α) (xr : Except Unit (List β)) :
    List (Option β) :=
  match xr with
  | Except.error _ => List.replicate containers_bs4.length none
  | Except.ok l =>
    (l.map some ++ List.replicate (containers_bs4.length - l.length) none).take
      containers_bs4.length

/-! ### Orchestrator run loop (scraper.py 957-1041)

One URL's processing inside `scrape_page` (scraper.py 744-830) is summarised
by its observable outcome; the branch structure below is the source's:
exceptions are caught inside `scrape_page`/`scrape_items` and turn into a
`failed_pages` bump with no result, a fetch returning no content does the
same, a record suppressed by the deduplicator yields no result with no
counter change, and a successful page bumps `successful_pages` and
contributes its records. -/

/-- Observable outcome of processing one URL. -/
inductive PageOutcome (α : Type) where
  | exn : PageOutcome α
  | fetchFail : PageOutcome α
  | dup : PageOutcome α
  | success : List α → PageOutcome α
deriving DecidableEq

/-- Effect of `WebScraper.scrape_page` on the stats, with the records it
hands back (scraper.py 744-830): an exception anywhere in the page body is
caught and counted as a failed page (827-830), a fetch with no content is
counted as a failed page (770-772), a duplicate page returns nothing and
touches no counter (820-822), and a success is counted and returns its
records (824-825; for item mode the whole item list, scraper.py 736-737). -/
def scrape_page {α : Type} (s : ScrapingStats) : PageOutcome α → Option (List α) × ScrapingStats
  | PageOutcome.exn => (none, { s with failed_pages := s.failed_pages + 1 })
  | PageOutcome.fetchFail => (none, { s with failed_pages := s.failed_pages + 1 })
  | PageOutcome.dup => (none, s)
  | PageOutcome.success ds => (some ds, { s with successful_pages := s.successful_pages + 1 })

/-- Accumulated state of `WebScraper.run`: the `results` list and the
stats. -/
structure RunState (α : Type) where
  results : List α
  stats : ScrapingStats

/-- Body of the URL loop of `WebScraper.run` (scraper.py 995-1020): a falsy
URL is skipped, otherwise the page is scraped and its records appended
(single page dict, or the flattened item list — both are the `success`
payload). -/
def runStep {α : Type} (st : RunState α) (u : String × PageOutcome α) : RunState α :=
  if u.1 = "" then st
  else
    match scrape_page st.stats u.2 with
    | (some ds, s') => { results := st.results ++ ds, stats := s' }
    | (none, s') => { results := st.results, stats := s' }

/-- `WebScraper.run` over the URL list paired with each URL's outcome
(scraper.py 957-1041): `total_pages` is set to the URL count before the loop
(992), then every URL is processed in order.  The function is total — no
exception escapes the loop body — which is the embedded form of "the job
never aborts and never reaches the Failed state from a page error": the
surrounding API layer (app.py 196-224) marks a job failed exactly when
`run` raises. -/
def run {α : Type} (pages : List (String × PageOutcome α)) : RunState α :=
  pages.foldl runStep
    { results := [],
      stats := { total_pages := pages.length, successful_pages := 0, failed_pages := 0 } }

/-- Check of one URL-outcome pair being a failed page: a non-falsy URL whose
scrape raised or fetched nothing. -/
def isFailedPage {α : Type} (u : String × PageOutcome α) : Bool :=
  u.1 ≠ "" && match u.2 with
    | PageOutcome.exn => true
    | PageOutcome.fetchFail => true
    | _ => false

/-- Check of one URL-outcome pair being a successful page. -/
def isSuccessPage {α : Type} (u : String × PageOutcome α) : Bool :=
  u.1 ≠ "" && match u.2 with
    | PageOutcome.success _ => true
    | _ => false

/-- Records contributed by one URL-outcome pair. -/
def collected {α : Type} (u : String × PageOutcome α) : List α :=
  if u.1 = "" then []
  else
    match u.2 with
    | PageOutcome.success ds => ds
    | _ => []

/-! ### Job submission validation (app.py 81-242)

The two submission endpoints validate the JSON body before any job state is
created; the body is `none` when absent, and the config fields are `none`
when missing from the JSON object.  Only the checks that run before the job
starts are modelled. -/

/-- Request configuration as far as validation reads it: the `url` value and
the `selectors` list (each selector config abstracted to its name). -/
structure ReqConfig where
  url : Option String
  selectors : Option (List String)
deriving DecidableEq

/-- Outcome of a submission request's validation prefix. -/
inductive SubmitOutcome where
  | rejected : String → SubmitOutcome
  | accepted : SubmitOutcome
deriving DecidableEq

/-- Validation prefix of the synchronous `/api/scrape` endpoint
(app.py 88-101): a missing body or falsy `url` is rejected with status 400,
then a missing or empty `selectors` list is rejected with status 400; both
rejections happen before the job is registered and before the scraper is
constructed. -/
def scrape_validate (body : Option ReqConfig) : SubmitOutcome :=
  match body with
  | none => SubmitOutcome.rejected "Missing required field: url"
  | some c =>
    if c.url.getD "" = "" then SubmitOutcome.rejected "Missing required field: url"
    else
      match c.selectors with
      | none => SubmitOutcome.rejected "At least one selector is required"
      | some [] => SubmitOutcome.rejected "At least one selector is required"
      | some (_ :: _) => SubmitOutcome.accepted

/-- Validation prefix of the asynchronous `/api/scrape-async` endpoint
(app.py 177-184): only a missing body or falsy `url` is rejected; the
`selectors` list is never inspected and the job is queued regardless. -/
def scrape_async_validate (body : Option ReqConfig) : SubmitOutcome :=
  match body with
  | none => SubmitOutcome.rejected "Missing required field: url"
  | some c =>
    if c.url.getD "" = "" then SubmitOutcome.rejected "Missing required field: url"
    else SubmitOutcome.accepted

/-! ## Theorems -/

/-- Closed form of one iteration of the run loop: the step appends exactly
the collected records and bumps exactly the counter matching the page's
outcome. -/
theorem runStep_closed {α : Type} (st : RunState α) (u : String × PageOutcome α) :
    (runStep st u).results = st.results ++ collected u
    ∧ (runStep st u).stats.failed_pages =
        st.stats.failed_pages + (if isFailedPage u then 1 else 0)
    ∧ (runStep st u).stats.successful_pages =
        st.stats.successful_pages + (if isSuccessPage u then 1 else 0)
    ∧ (runStep st u).stats.total_pages = st.stats.total_pages := by
  obtain ⟨url, o⟩ := u
  by_cases hurl : url = "" <;> cases o <;>
    simp [runStep, scrape_page, collected, isFailedPage, isSuccessPage, hurl]

/-- Fold invariant of the run loop: results accumulate the collected records,
`failed_pages` counts the failed pages, `successful_pages` the successful
ones, and `total_pages` is untouched by the loop. -/
theorem run_foldl_spec {α : Type} (pages : List (String × PageOutcome α)) :
    ∀ st : RunState α,
      (pages.foldl runStep st).results = st.results ++ pages.flatMap collected
      ∧ (pages.foldl runStep st).stats.failed_pages =
          st.stats.failed_pages + (pages.filter isFailedPage).length
      ∧ (pages.foldl runStep st).stats.successful_pages =
          st.stats.successful_pages + (pages.filter isSuccessPage).length
      ∧ (pages.foldl runStep st).stats.total_pages = st.stats.total_pages := by
  induction pages with
  | nil => intro st; simp
  | cons u rest ih =>
    intro st
    obtain ⟨s1, s2, s3, s4⟩ := runStep_closed st u
    obtain ⟨ih1, ih2, ih3, ih4⟩ := ih (runStep st u)
    rw [List.foldl_cons]
    refine ⟨?_, ?_, ?_, ?_⟩
    · rw [ih1, s1, List.flatMap_cons, List.append_assoc]
    · rw [ih2, s2, List.filter_cons]
      by_cases h : isFailedPage u
      · simp [h]; omega
      · simp [h]
    · rw [ih3, s3, List.filter_cons]
      by_cases h : isSuccessPage u
      · simp [h]; omega
      · simp [h]
    · rw [ih4, s4]

/-- C1: a failure to fetch or scrape a single page only increments the
`failed_pages` counter, and the run loop continues: the final results contain
the records of every successful page, including those after a failure, the
failed-page count is exactly the number of failing URLs, and `run` — which is
total, because `scrape_page` catches every per-page exception — completes
for every outcome sequence, so a single-page error never aborts the job nor
reaches the Failed state (which the API layer assigns only when `run`
raises). -/
theorem run_single_page_failure_continues {α : Type} (pages : List (String × PageOutcome α)) :
    (run pages).stats.failed_pages = (pages.filter isFailedPage).length
    ∧ (run pages).results = pages.flatMap collected
    ∧ (run pages).stats.successful_pages = (pages.filter isSuccessPage).length
    ∧ (run pages).stats.total_pages = pages.length := by
  obtain ⟨h1, h2, h3, h4⟩ := run_foldl_spec pages
    { results := [],
      stats := { total_pages := pages.length, successful_pages := 0, failed_pages := 0 } }
  refine ⟨?_, ?_, ?_, ?_⟩ <;> simp [run, h1, h2, h3, h4]

/-- C10: with incremental mode off, `is_duplicate` returns `false` and leaves
the deduplicator untouched; a call that returns `true` never mutates the
state; and whenever the state does change, the call returned `false` and the
change is exactly the registration of the record's digest. -/
theorem is_duplicate_frame (md5 : String → String) (d : Dedup) (data : List (String × String)) :
    (d.incremental = false → is_duplicate md5 d data = (false, d))
    ∧ ((is_duplicate md5 d data).1 = true → (is_duplicate md5 d data).2 = d)
    ∧ ((is_duplicate md5 d data).2 ≠ d →
        (is_duplicate md5 d data).1 = false
        ∧ (is_duplicate md5 d data).2.data_hash =
            md5 (jsonDumpsSorted data) :: d.data_hash) := by
  unfold is_duplicate
  by_cases hinc : d.incremental = false
  · simp [hinc]
  · by_cases hmem : md5 (jsonDumpsSorted data) ∈ d.data_hash <;> simp [hinc, hmem]

/-- Witness for C10 at concrete inputs: a disabled deduplicator passes a
record through unchanged, and a repeated record leaves the state as it
was. -/
theorem is_duplicate_frame_witness :
    is_duplicate (fun s => s) ⟨false, []⟩ [("k", "v")] = (false, ⟨false, []⟩)
    ∧ (is_duplicate (fun s => s)
          ⟨true, ["\x7b\"k\": \"v\"\x7d"]⟩ [("k", "v")]).2 =
        ⟨true, ["\x7b\"k\": \"v\"\x7d"]⟩ := by
  constructor
  · exact (is_duplicate_frame (fun s => s) ⟨false, []⟩ [("k", "v")]).1 rfl
  · exact (is_duplicate_frame (fun s => s)
      ⟨true, ["\x7b\"k\": \"v\"\x7d"]⟩ [("k", "v")]).2.1 (by decide)

/-- C8 counterexample: a submission with a `url` but an empty selector list
is accepted by the asynchronous endpoint — `/api/scrape-async` never
inspects `selectors` — while the synchronous endpoint rejects the very same
configuration.  The claim "this holds for every job-submission path" fails
on the async path. -/
theorem async_submit_accepts_empty_selectors :
    scrape_async_validate (some ⟨some "https://example.com", some []⟩) =
      SubmitOutcome.accepted
    ∧ scrape_validate (some ⟨some "https://example.com", some []⟩) =
        SubmitOutcome.rejected "At least one selector is required" := by
  decide

/-- C8 as amended: a missing body or missing/empty `url` is rejected
synchronously on both submission paths before any job state exists; a
missing or empty selector list is rejected only by the synchronous path,
while the asynchronous path accepts any configuration with a non-falsy
`url`. -/
theorem submit_validation_spec :
    (scrape_validate none = SubmitOutcome.rejected "Missing required field: url"
      ∧ scrape_async_validate none = SubmitOutcome.rejected "Missing required field: url")
    ∧ (∀ c : ReqConfig, c.url.getD "" = "" →
        scrape_validate (some c) = SubmitOutcome.rejected "Missing required field: url"
        ∧ scrape_async_validate (some c) =
            SubmitOutcome.rejected "Missing required field: url")
    ∧ (∀ c : ReqConfig, c.url.getD "" ≠ "" → (c.selectors = none ∨ c.selectors = some []) →
        scrape_validate (some c) = SubmitOutcome.rejected "At least one selector is required"
        ∧ scrape_async_validate (some c) = SubmitOutcome.accepted)
    ∧ (∀ (c : ReqConfig) (s : String) (ss : List String),
        c.url.getD "" ≠ "" → c.selectors = some (s :: ss) →
        scrape_validate (some c) = SubmitOutcome.accepted) := by
  refine ⟨⟨rfl, rfl⟩, ?_, ?_, ?_⟩
  · intro c hurl
    simp [scrape_validate, scrape_async_validate, hurl]
  · intro c hurl hsel
    rcases hsel with h | h <;> simp [scrape_validate, scrape_async_validate, hurl, h]
  · intro c s ss hurl hsel
    simp [scrape_validate, hurl, hsel]

/-- Witness for C8's amended statement at concrete configurations. -/
theorem submit_validation_spec_witness :
    scrape_validate (some ⟨none, some ["h1"]⟩) =
      SubmitOutcome.rejected "Missing required field: url"
    ∧ scrape_async_validate (some ⟨some "https://e.com", none⟩) = SubmitOutcome.accepted
    ∧ scrape_validate (some ⟨some "https://e.com", some ["h1"]⟩) = SubmitOutcome.accepted := by
  refine ⟨(submit_validation_spec.2.1 ⟨none, some ["h1"]⟩ rfl).1,
    (submit_validation_spec.2.2.1 ⟨some "https://e.com", none⟩ (by decide) (Or.inl rfl)).2,
    submit_validation_spec.2.2.2 ⟨some "https://e.com", some ["h1"]⟩ "h1" [] (by decide) rfl⟩

/-- C7: container alignment for a CSS-dialect container selector.  Whatever
the outcome of the translated XPath evaluation — a raised error included —
the aligned lxml list has exactly the length of the native CSS container
list: a failure degrades to all-placeholder entries, a short list is padded
with placeholders, a long list is truncated, and within the common range the
entries are the XPath containers in order (index alignment). -/
theorem align_containers_spec {α β : Type} (containers_bs4 : List α)
    (xr : Except Unit (List β)) :
    (alignContainers containers_bs4 xr).length = containers_bs4.length
    ∧ (∀ e, xr = Except.error e →
        alignContainers containers_bs4 xr = List.replicate containers_bs4.length none)
    ∧ (∀ l, xr = Except.ok l → ∀ i, i < l.length → i < containers_bs4.length →
        (alignContainers containers_bs4 xr)[i]? = (l[i]?).map some) := by
  refine ⟨?_, ?_, ?_⟩
  · cases xr with
    | error e => simp [alignContainers]
    | ok l =>
      simp only [alignContainers, List.length_take, List.length_append, List.length_map,
        List.length_replicate]
      omega
  · intro e he
    subst he
    rfl
  · intro l hl i hil hin
    subst hl
    simp [alignContainers, List.getElem?_take, List.getElem?_append, hin, hil,
      List.getElem?_map]

/-- Witness for C7 at a concrete three-container page with a one-element
translated list and with a failing translation. -/
theorem align_containers_spec_witness :
    (alignContainers [10, 20, 30] (Except.ok ["a"])).length = 3
    ∧ alignContainers [10, 20, 30] (Except.error () : Except Unit (List String)) =
        [none, none, none]
    ∧ (alignContainers [10, 20, 30] (Except.ok ["a"]))[0]? = some (some "a") := by
  refine ⟨?_, ?_, ?_⟩
  · exact (align_containers_spec [10, 20, 30] (Except.ok ["a"])).1
  · have h := (align_containers_spec [10, 20, 30]
      (Except.error () : Except Unit (List String))).2.1 () rfl
    simpa using h
  · have h := (align_containers_spec [10, 20, 30] (Except.ok ["a"])).2.2 ["a"] rfl 0
      (by decide) (by decide)
    simpa using h

/-- Retry loop exhaustion: when every attempt in the window fails, the loop
performs exactly `r` invocations and re-raises the error of the last one. -/
theorem executeAux_all_fail {E A : Type} (op : Nat → Except E A) :
    ∀ (r i : Nat) (last : Option E) (e : E), 1 ≤ r →
      (∀ j, i ≤ j → j < i + r → (op j).isOk = false) →
      op (i + r - 1) = Except.error e →
      RetryHandler.executeAux op i r last = (Except.error (some e), r) := by
  intro r
  induction r with
  | zero => intro i last e h; omega
  | succ r ih =>
    intro i last e _ hfail hlast
    cases r with
    | zero =>
      have : op i = Except.error e := by simpa using hlast
      simp [RetryHandler.executeAux, this]
    | succ r' =>
      have hi : (op i).isOk = false := hfail i (le_refl i) (by omega)
      cases hop : op i with
      | ok a => rw [hop] at hi; simp [Except.isOk, Except.toBool] at hi
      | error e' =>
        have hrest := ih (i + 1) (some e') e (by omega)
          (fun j h1 h2 => hfail j (by omega) (by omega))
          (by have heq : i + 1 + (r' + 1) - 1 = i + (r' + 1 + 1) - 1 := by omega
              rw [heq]; exact hlast)
        have hstep : RetryHandler.executeAux op i (r' + 1 + 1) last =
            ((RetryHandler.executeAux op (i + 1) (r' + 1) (some e')).1,
              (RetryHandler.executeAux op (i + 1) (r' + 1) (some e')).2 + 1) := by
          rw [RetryHandler.executeAux, hop]
        rw [hstep, hrest]

/-- Retry loop first success: when the first `k` attempts of the window fail
and the next one succeeds within the budget, the loop performs exactly
`k + 1` invocations and returns the success value. -/
theorem executeAux_first_success {E A : Type} (op : Nat → Except E A) :
    ∀ (k i r : Nat) (last : Option E) (a : A),
      op (i + k) = Except.ok a →
      (∀ j, i ≤ j → j < i + k → (op j).isOk = false) →
      k < r →
      RetryHandler.executeAux op i r last = (Except.ok a, k + 1) := by
  intro k
  induction k with
  | zero =>
    intro i r last a hok _ hkr
    cases r with
    | zero => omega
    | succ r' =>
      have : op i = Except.ok a := by simpa using hok
      simp [RetryHandler.executeAux, this]
  | succ k ih =>
    intro i r last a hok hfail hkr
    cases r with
    | zero => omega
    | succ r' =>
      have hi : (op i).isOk = false := hfail i (le_refl i) (by omega)
      cases hop : op i with
      | ok b => rw [hop] at hi; simp [Except.isOk, Except.toBool] at hi
      | error e' =>
        have hrest := ih (i + 1) r' (some e') a
          (by have heq : i + 1 + k = i + (k + 1) := by omega
              rw [heq]; exact hok)
          (fun j h1 h2 => hfail j (by omega) (by omega))
          (by omega)
        have hstep : RetryHandler.executeAux op i (r' + 1) last =
            ((RetryHandler.executeAux op (i + 1) r' (some e')).1,
              (RetryHandler.executeAux op (i + 1) r' (some e')).2 + 1) := by
          rw [RetryHandler.executeAux, hop]
        rw [hstep, hrest]

/-- C2: for `maxAttempts ≥ 1`, an operation that fails on every invocation is
invoked exactly `maxAttempts` times by `execute`, after which the last error
is re-raised to the caller (the condition the error taxonomy labels
FetchExhausted); an operation that first succeeds on its `k`-th invocation
with `k ≤ maxAttempts` is invoked exactly `k` times and its success value is
returned. -/
theorem retry_execute_spec {E A : Type} (op : Nat → Except E A) (m : Nat) (hm : 1 ≤ m) :
    ((∀ i, (op i).isOk = false) → ∀ e, op (m - 1) = Except.error e →
      RetryHandler.execute op m = (Except.error (some e), m))
    ∧ (∀ k a, op k = Except.ok a → (∀ j, j < k → (op j).isOk = false) → k < m →
      RetryHandler.execute op m = (Except.ok a, k + 1)) := by
  constructor
  · intro hfail e hlast
    exact executeAux_all_fail op m 0 none e hm (fun j _ _ => hfail j) (by simpa using hlast)
  · intro k a hok hfail hkm
    exact executeAux_first_success op k 0 m none a (by simpa using hok)
      (fun j _ hj => hfail j (by omega)) hkm

/-- Witness for C2: an always-failing operation under 3 attempts is invoked
3 times and the error of the third attempt is surfaced; an operation that
fails twice and then succeeds, under 4 attempts, is invoked 3 times and its
value returned. -/
theorem retry_execute_spec_witness :
    RetryHandler.execute (fun i => (Except.error i : Except Nat String)) 3 =
      (Except.error (some 2), 3)
    ∧ RetryHandler.execute
        (fun i => if i < 2 then (Except.error i : Except Nat Nat) else Except.ok 7) 4 =
      (Except.ok 7, 3) := by
  constructor
  · exact (retry_execute_spec (fun i => (Except.error i : Except Nat String)) 3
      (by decide)).1 (fun i => rfl) 2 rfl
  · exact (retry_execute_spec
      (fun i => if i < 2 then (Except.error i : Except Nat Nat) else Except.ok 7) 4
      (by decide)).2 2 7 rfl
      (fun j hj => by
        match j, hj with
        | 0, _ => rfl
        | 1, _ => rfl)
      (by decide)

/-- Cursor invariant of the round-robin rotation: starting from index 0, the
cursor after `k` calls is `k` modulo the pool size, and the pool itself never
changes. -/
theorem afterCalls_zero_index (pool : List String) (hne : pool ≠ []) (k : Nat) :
    ProxyManager.afterCalls ⟨pool, 0⟩ k = ⟨pool, k % pool.length⟩ := by
  induction k with
  | zero => simp [ProxyManager.afterCalls]
  | succ k ih =>
    have hemp : pool.isEmpty = false := by
      cases pool with
      | nil => exact absurd rfl hne
      | cons a l => rfl
    rw [ProxyManager.afterCalls, ih, ProxyManager.get_proxy]
    simp [hemp, Nat.mod_add_mod]

/-- Empty-pool invariant: `get_proxy` leaves the manager untouched, so every
call observes the same empty pool. -/
theorem afterCalls_empty (k : Nat) :
    ProxyManager.afterCalls ⟨[], 0⟩ k = ⟨[], 0⟩ := by
  induction k with
  | zero => rfl
  | succ k ih => rw [ProxyManager.afterCalls, ih]; rfl

/-- C6: for a non-empty pool of `n` proxies the `m`-th call to `get_proxy`
(for `m ≥ 1`) returns the proxy at position `(m-1) mod n` of the configured
pool, duplicated into the http/https slots of the returned dict — pure
round-robin from index 0; for an empty pool every call returns the no-proxy
sentinel `none`. -/
theorem get_proxy_round_robin :
    (∀ (pool : List String) (m : Nat), pool ≠ [] → 1 ≤ m →
      ∃ hlt : (m - 1) % pool.length < pool.length,
        ProxyManager.nthCall ⟨pool, 0⟩ m =
          some (pool.get ⟨(m - 1) % pool.length, hlt⟩,
            pool.get ⟨(m - 1) % pool.length, hlt⟩))
    ∧ ∀ k, ProxyManager.nthCall (⟨[], 0⟩ : ProxyManager) k = none := by
  constructor
  · intro pool m hne _
    have hlen : 0 < pool.length := List.length_pos.mpr hne
    have hlt : (m - 1) % pool.length < pool.length := Nat.mod_lt _ hlen
    refine ⟨hlt, ?_⟩
    have hemp : pool.isEmpty = false := by
      cases pool with
      | nil => exact absurd rfl hne
      | cons a l => rfl
    rw [ProxyManager.nthCall, afterCalls_zero_index pool hne, ProxyManager.get_proxy]
    simp [hemp, List.getD_eq_getElem?_getD, List.getElem?_eq_getElem hlt]
  · intro k
    rw [ProxyManager.nthCall, afterCalls_empty]
    rfl

/-- Witness for C6: with the pool `["p0", "p1", "p2"]` the fifth call returns
`p1` (position `(5-1) mod 3 = 1`). -/
theorem get_proxy_round_robin_witness :
    ProxyManager.nthCall ⟨["p0", "p1", "p2"], 0⟩ 5 = some ("p1", "p1")
    ∧ ProxyManager.nthCall (⟨[], 0⟩ : ProxyManager) 2 = none := by
  constructor
  · obtain ⟨hlt, e⟩ := get_proxy_round_robin.1 ["p0", "p1", "p2"] 5 (by decide) (by decide)
    simpa using e
  · exact get_proxy_round_robin.2 2

/-- Loop/fold correspondence for `get_healthiest`: once a best candidate with
its own score is in the accumulator, the loop computes the left fold of the
keep-or-replace choice. -/
theorem healthiestLoop_eq_foldl (sc : String → Int) :
    ∀ (l : List String) (b : String),
      healthiestLoop sc l (some (b, sc b)) =
        some (l.foldl (pick sc) b, sc (l.foldl (pick sc) b)) := by
  intro l
  induction l with
  | nil => intro b; rfl
  | cons q rest ih =>
    intro b
    by_cases hq : sc b < sc q
    · rw [healthiestLoop]
      simp only [hq, if_true, List.foldl_cons]
      rw [show pick sc b q = q from by simp [pick, hq]]
      exact ih q
    · rw [healthiestLoop]
      simp only [hq, if_false, List.foldl_cons]
      rw [show pick sc b q = b from by simp [pick, hq]]
      exact ih b

/-- Seed monotonicity of the keep-or-replace fold: the result never scores
below the seed. -/
theorem le_score_foldl_pick (sc : String → Int) :
    ∀ (l : List String) (b : String), sc b ≤ sc (l.foldl (pick sc) b) := by
  intro l
  induction l with
  | nil => intro b; exact le_refl _
  | cons q rest ih =>
    intro b
    rw [List.foldl_cons]
    refine le_trans ?_ (ih (pick sc b q))
    by_cases hq : sc b < sc q <;> simp [pick, hq]
    exact le_of_lt hq

/-- Positional characterisation of the keep-or-replace fold: the result
splits the candidate list so that everything seen before the winner scores
strictly below it and everything after scores at most it — i.e. the fold
returns the first candidate attaining the maximum score. -/
theorem foldl_pick_decomp (sc : String → Int) :
    ∀ (l : List String) (b : String),
      ∃ l₁ l₂, b :: l = l₁ ++ (l.foldl (pick sc) b) :: l₂
        ∧ (∀ p ∈ l₁, sc p < sc (l.foldl (pick sc) b))
        ∧ (∀ p ∈ l₂, sc p ≤ sc (l.foldl (pick sc) b)) := by
  intro l
  induction l with
  | nil =>
    intro b
    exact ⟨[], [], rfl, by simp, by simp⟩
  | cons q rest ih =>
    intro b
    rw [List.foldl_cons]
    by_cases hq : sc b < sc q
    · rw [show pick sc b q = q from by simp [pick, hq]]
      obtain ⟨l₁, l₂, hsplit, hlt, hle⟩ := ih q
      have hqr : sc q ≤ sc (rest.foldl (pick sc) q) := le_score_foldl_pick sc rest q
      exact ⟨b :: l₁, l₂, by rw [List.cons_append, ← hsplit],
        by
          intro p hp
          rcases List.mem_cons.mp hp with h | h
          · subst h; exact lt_of_lt_of_le hq hqr
          · exact hlt p h,
        hle⟩
    · rw [show pick sc b q = b from by simp [pick, hq]]
      obtain ⟨l₁, l₂, hsplit, hlt, hle⟩ := ih b
      have hqb : sc q ≤ sc b := le_of_not_lt hq
      have hbr : sc b ≤ sc (rest.foldl (pick sc) b) := le_score_foldl_pick sc rest b
      cases l₁ with
      | nil =>
        simp only [List.nil_append] at hsplit
        have hb : b = rest.foldl (pick sc) b := (List.cons.injEq _ _ _ _).mp hsplit |>.1
        have hr : rest = l₂ := (List.cons.injEq _ _ _ _).mp hsplit |>.2
        refine ⟨[], q :: l₂, ?_, by simp, ?_⟩
        · simp only [List.nil_append]
          rw [← hb, ← hr]
        · intro p hp
          rcases List.mem_cons.mp hp with h | h
          · subst h; rw [← hb]; exact hqb
          · exact hle p h
      | cons x l₁' =>
        have hbx : b = x := by
          have := (List.cons.injEq _ _ _ _).mp (by simpa using hsplit) |>.1
          exact this
        have hrest : rest = l₁' ++ (rest.foldl (pick sc) b) :: l₂ := by
          have := (List.cons.injEq _ _ _ _).mp (by simpa using hsplit) |>.2
          exact this
        have hblt : sc b < sc (rest.foldl (pick sc) b) := by
          have hx := hlt x (List.mem_cons_self x l₁')
          rw [← hbx] at hx
          exact hx
        refine ⟨b :: q :: l₁', l₂, ?_, ?_, hle⟩
        · rw [List.cons_append, List.cons_append, ← hrest]
        · intro p hp
          rcases List.mem_cons.mp hp with h | h
          · subst h; exact hblt
          rcases List.mem_cons.mp h with h' | h'
          · subst h'; exact lt_of_le_of_lt hqb hblt
          · exact hlt p (List.mem_cons_of_mem x h')

/-- C9: for a non-empty pool `get_healthiest` returns the proxy that
maximises `successes − 2×failures` over the health table, with ties broken
by pool (first-seen) order: the pool splits around the returned proxy with
all earlier proxies scoring strictly lower and all later ones scoring no
higher. -/
theorem get_healthiest_spec (pool : List String) (h : List (String × ProxyHealth))
    (hne : pool ≠ []) :
    ∃ best l₁ l₂,
      ProxyManager.get_healthiest pool h = some best
      ∧ pool = l₁ ++ best :: l₂
      ∧ (∀ p ∈ l₁, score (healthLookup h p) < score (healthLookup h best))
      ∧ (∀ p ∈ l₂, score (healthLookup h p) ≤ score (healthLookup h best)) := by
  cases pool with
  | nil => exact absurd rfl hne
  | cons p rest =>
    obtain ⟨l₁, l₂, hsplit, hlt, hle⟩ :=
      foldl_pick_decomp (fun q => score (healthLookup h q)) rest p
    refine ⟨rest.foldl (pick (fun q => score (healthLookup h q))) p, l₁, l₂, ?_, hsplit,
      hlt, hle⟩
    rw [ProxyManager.get_healthiest]
    simp only [List.isEmpty_cons, Bool.false_eq_true, if_false]
    rw [healthiestLoop, healthiestLoop_eq_foldl]
    rfl

/-- Witness for C9: after marking proxy A with 3 successes and proxy B with
1 success and 1 failure (scores 3 and −1), `get_healthiest` returns A. -/
theorem get_healthiest_spec_witness :
    ProxyManager.get_healthiest ["proxyA", "proxyB"]
        (mark_success (mark_success (mark_success
          (mark_success (mark_failure (initHealth ["proxyA", "proxyB"])
            "proxyB") "proxyB") "proxyA") "proxyA") "proxyA") =
      some "proxyA"
    ∧ ∃ best l₁ l₂,
        ProxyManager.get_healthiest ["proxyA", "proxyB"]
            (mark_success (mark_success (mark_success
              (mark_success (mark_failure (initHealth ["proxyA", "proxyB"])
                "proxyB") "proxyB") "proxyA") "proxyA") "proxyA") =
          some best
        ∧ ["proxyA", "proxyB"] = l₁ ++ best :: l₂
        ∧ (∀ p ∈ l₁,
            score (healthLookup (mark_success (mark_success (mark_success
              (mark_success (mark_failure (initHealth ["proxyA", "proxyB"])
                "proxyB") "proxyB") "proxyA") "proxyA") "proxyA") p) <
            score (healthLookup (mark_success (mark_success (mark_success
              (mark_success (mark_failure (initHealth ["proxyA", "proxyB"])
                "proxyB") "proxyB") "proxyA") "proxyA") "proxyA") best))
        ∧ (∀ p ∈ l₂,
            score (healthLookup (mark_success (mark_success (mark_success
              (mark_success (mark_failure (initHealth ["proxyA", "proxyB"])
                "proxyB") "proxyB") "proxyA") "proxyA") "proxyA") p) ≤
            score (healthLookup (mark_success (mark_success (mark_success
              (mark_success (mark_failure (initHealth ["proxyA", "proxyB"])
                "proxyB") "proxyB") "proxyA") "proxyA") "proxyA") best)) := by
  constructor
  · decide
  · exact get_healthiest_spec ["proxyA", "proxyB"] _ (by decide)

/-- Strictification of the canonical key order: a list sorted by `keyLe`
whose keys are pairwise distinct is sorted by the strict order `keyLt`. -/
theorem sorted_keyLt_of_sorted_keyLe {l : List (String × String)}
    (hs : List.Sorted keyLe l) (hn : (l.map Prod.fst).Nodup) :
    List.Sorted keyLt l := by
  have hp : l.Pairwise (fun a b : String × String => a.1 ≠ b.1) :=
    List.pairwise_map.mp hn
  refine (List.Pairwise.and hs hp).imp ?_
  intro a b hab
  obtain ⟨hle, hne⟩ := hab
  refine lt_of_le_of_ne hle ?_
  intro hdata
  exact hne (String.ext hdata)

/-- Canonicalisation: two records that are permutations of each other with
distinct keys have the same key-sorted form, hence the same
`json.dumps(..., sort_keys=True)` serialization. -/
theorem insertionSort_eq_of_perm {r r' : List (String × String)}
    (hperm : r.Perm r') (hnodup : (r.map Prod.fst).Nodup) :
    List.insertionSort keyLe r = List.insertionSort keyLe r' := by
  have hp : (List.insertionSort keyLe r).Perm (List.insertionSort keyLe r') :=
    (List.perm_insertionSort keyLe r).trans
      (hperm.trans (List.perm_insertionSort keyLe r').symm)
  have hn1 : ((List.insertionSort keyLe r).map Prod.fst).Nodup :=
    (((List.perm_insertionSort keyLe r).map Prod.fst).nodup_iff).mpr hnodup
  have hn2 : ((List.insertionSort keyLe r').map Prod.fst).Nodup :=
    (((List.perm_insertionSort keyLe r').map Prod.fst).nodup_iff).mpr
      (((hperm.map Prod.fst).nodup_iff).mp hnodup)
  exact List.eq_of_perm_of_sorted hp
    (sorted_keyLt_of_sorted_keyLe (List.sorted_insertionSort keyLe r) hn1)
    (sorted_keyLt_of_sorted_keyLe (List.sorted_insertionSort keyLe r') hn2)

/-- C5: with incremental mode on and a fresh deduplicator, presenting any
record (with distinct keys) and then a key-reordered copy of it yields
`(false, true)`: the first call registers the canonical content's digest and
returns `false`, the second call — on the same canonical content, since
canonicalisation key-sorts the record — returns `true` and leaves the state
unchanged. -/
theorem is_duplicate_key_order_independent (md5 : String → String)
    (r r' : List (String × String)) (hperm : r.Perm r')
    (hnodup : (r.map Prod.fst).Nodup) :
    (is_duplicate md5 ⟨true, []⟩ r).1 = false
    ∧ (is_duplicate md5 ⟨true, []⟩ r).2 = ⟨true, [md5 (jsonDumpsSorted r)]⟩
    ∧ (is_duplicate md5 (is_duplicate md5 ⟨true, []⟩ r).2 r').1 = true
    ∧ (is_duplicate md5 (is_duplicate md5 ⟨true, []⟩ r).2 r').2 =
        (is_duplicate md5 ⟨true, []⟩ r).2 := by
  have hcanon : jsonDumpsSorted r' = jsonDumpsSorted r := by
    unfold jsonDumpsSorted
    rw [insertionSort_eq_of_perm hperm hnodup]
  have h1 : is_duplicate md5 ⟨true, []⟩ r = (false, ⟨true, [md5 (jsonDumpsSorted r)]⟩) := by
    simp [is_duplicate]
  refine ⟨by rw [h1], by rw [h1], ?_, ?_⟩
  · rw [h1]
    simp [is_duplicate, hcanon]
  · rw [h1]
    simp [is_duplicate, hcanon]

/-- Witness for C5: the record `{"b": "2", "a": "1"}` presented twice with the
key order swapped, under the identity digest; the canonical serialization is
the key-sorted one. -/
theorem is_duplicate_key_order_independent_witness :
    jsonDumpsSorted [("b", "2"), ("a", "1")] = "\x7b\"a\": \"1\", \"b\": \"2\"\x7d"
    ∧ ((is_duplicate (fun s => s) ⟨true, []⟩ [("b", "2"), ("a", "1")]).1 = false
      ∧ (is_duplicate (fun s => s) ⟨true, []⟩ [("b", "2"), ("a", "1")]).2 =
          ⟨true, [(fun s : String => s) (jsonDumpsSorted [("b", "2"), ("a", "1")])]⟩
      ∧ (is_duplicate (fun s => s)
          (is_duplicate (fun s => s) ⟨true, []⟩ [("b", "2"), ("a", "1")]).2
          [("a", "1"), ("b", "2")]).1 = true
      ∧ (is_duplicate (fun s => s)
          (is_duplicate (fun s => s) ⟨true, []⟩ [("b", "2"), ("a", "1")]).2
          [("a", "1"), ("b", "2")]).2 =
        (is_duplicate (fun s => s) ⟨true, []⟩ [("b", "2"), ("a", "1")]).2) := by
  constructor
  · decide
  · exact is_duplicate_key_order_independent (fun s => s)
      [("b", "2"), ("a", "1")] [("a", "1"), ("b", "2")] (by decide) (by decide)

/-- Absorption of a discarded record: once the field loop has dropped the
record, no later field resurrects it. -/
theorem foldl_fieldStep_none (ev : FieldSpec → Except Unit String) :
    ∀ fields : List FieldSpec, fields.foldl (fieldStep ev) none = none := by
  intro fields
  induction fields with
  | nil => rfl
  | cons f rest ih => rw [List.foldl_cons]; exact ih

/-- C3 counterexample: a REQUIRED xpath-dialect field whose selector
evaluation raises does not discard the container's record — the inner
`except` of the xpath branch (scraper.py 670-672) turns the error into an
empty match before the required check can fire, so the record survives with
that field set to the empty string, later fields included. -/
theorem required_xpath_error_keeps_record :
    extract_item_fields [("item_index", "1")]
        [⟨"price", ".//span", Dialect.xpath, true⟩,
          ⟨"title", "h2", Dialect.css, false⟩]
        (fun f => if f.name = "price" then Except.error () else Except.ok "T") =
      some [("item_index", "1"), ("price", ""), ("title", "T")] := by
  decide

/-- C3 as amended: during item-mode extraction of one container's record, a
non-required field whose selector evaluation errors yields the empty string;
an evaluation error on a required CSS-dialect field discards the entire
record, with no partial record emitted; but an evaluation error on an
xpath-dialect field always yields the empty string, the required flag
notwithstanding, because the xpath branch catches the error before the
required check.  Part one states the discard, part two the surviving record's
exact contents when no required CSS field errors. -/
theorem item_required_field_spec (builtins : List (String × String))
    (fields : List FieldSpec) (ev : FieldSpec → Except Unit String) :
    ((∃ f ∈ fields, f.selector ≠ "" ∧ f.dialect = Dialect.css ∧ f.required = true
        ∧ (ev f).isOk = false) →
      extract_item_fields builtins fields ev = none)
    ∧ ((∀ f ∈ fields, f.dialect = Dialect.css → f.required = true → f.selector ≠ "" →
          (ev f).isOk = true) →
      extract_item_fields builtins fields ev =
        some (builtins ++ fields.filterMap (fun f =>
          if f.selector = "" then none
          else
            match ev f with
            | Except.ok v => some (f.name, v)
            | Except.error _ => some (f.name, "")))) := by
  constructor
  · rw [extract_item_fields]
    induction fields generalizing builtins with
    | nil => rintro ⟨f, hf, _⟩; simp at hf
    | cons g rest ih =>
      rintro ⟨f, hf, hsel, hcss, hreq, herr⟩
      rw [List.foldl_cons]
      rcases List.mem_cons.mp hf with heq | hmem
      · subst heq
        cases hev : ev f with
        | ok v => rw [hev] at herr; simp [Except.isOk, Except.toBool] at herr
        | error e =>
          rw [show fieldStep ev (some builtins) f = none from by
            simp [fieldStep, hsel, hcss, hev, hreq]]
          exact foldl_fieldStep_none ev rest
      · cases hstep : fieldStep ev (some builtins) g with
        | none => exact foldl_fieldStep_none ev rest
        | some r => exact ih r ⟨f, hmem, hsel, hcss, hreq, herr⟩
  · rw [extract_item_fields]
    induction fields generalizing builtins with
    | nil => intro _; simp
    | cons g rest ih =>
      intro hok
      rw [List.foldl_cons, List.filterMap_cons]
      by_cases hsel : g.selector = ""
      · rw [show fieldStep ev (some builtins) g = some builtins from by
          simp [fieldStep, hsel]]
        rw [ih builtins (fun f hf => hok f (List.mem_cons_of_mem g hf))]
        simp [hsel]
      · cases hev : ev g with
        | ok v =>
          rw [show fieldStep ev (some builtins) g = some (builtins ++ [(g.name, v)]) from by
            simp [fieldStep, hsel, hev]]
          rw [ih (builtins ++ [(g.name, v)]) (fun f hf => hok f (List.mem_cons_of_mem g hf))]
          simp [hsel, hev, List.append_assoc]
        | error e =>
          have hnotreq : ¬(g.dialect = Dialect.css ∧ g.required = true) := by
            rintro ⟨hcss, hreq⟩
            have := hok g (List.mem_cons_self g rest) hcss hreq hsel
            rw [hev] at this
            simp [Except.isOk, Except.toBool] at this
          have hstep : fieldStep ev (some builtins) g = some (builtins ++ [(g.name, "")]) := by
            cases hd : g.dialect with
            | css =>
              have hreq : g.required = false := by
                cases hr : g.required with
                | false => rfl
                | true => exact absurd ⟨hd, hr⟩ hnotreq
              simp [fieldStep, hsel, hd, hev, hreq]
            | xpath => simp [fieldStep, hsel, hd, hev]
          rw [hstep, ih (builtins ++ [(g.name, "")])
            (fun f hf => hok f (List.mem_cons_of_mem g hf))]
          simp [hsel, hev, List.append_assoc]

/-- Witness for C3's amended statement: a required CSS field whose evaluation
errors discards the record; a non-required CSS field error and a required
xpath field together survive with the documented values. -/
theorem item_required_field_spec_witness :
    extract_item_fields [("url", "u")] [⟨"t", "h2", Dialect.css, true⟩]
        (fun _ => Except.error ()) = none
    ∧ extract_item_fields [("url", "u")]
        [⟨"t", "h2", Dialect.css, false⟩, ⟨"p", ".//b", Dialect.xpath, true⟩]
        (fun f => if f.name = "t" then Except.error () else Except.ok "V") =
      some [("url", "u"), ("t", ""), ("p", "V")] := by
  constructor
  · exact (item_required_field_spec [("url", "u")] [⟨"t", "h2", Dialect.css, true⟩]
      (fun _ => Except.error ())).1
      ⟨⟨"t", "h2", Dialect.css, true⟩, by decide, by decide, rfl, rfl, rfl⟩
  · have h := (item_required_field_spec [("url", "u")]
      [⟨"t", "h2", Dialect.css, false⟩, ⟨"p", ".//b", Dialect.xpath, true⟩]
      (fun f => if f.name = "t" then Except.error () else Except.ok "V")).2
      (by decide)
    simpa using h

/-- Dict-assignment semantics of `setParam`: the assigned parameter is
present with exactly the assigned value list. -/
theorem setParam_self_mem (q : List (String × List String)) (param : String)
    (vs : List String) : (param, vs) ∈ setParam q param vs := by
  rw [setParam]
  by_cases hany : q.any (fun g => g.1 == param)
  · simp only [hany, if_true]
    obtain ⟨g, hg, hgp⟩ := List.any_eq_true.mp hany
    have hgp' : g.1 = param := by simpa using hgp
    refine List.mem_map.mpr ⟨g, hg, ?_⟩
    simp [hgp']
  · simp [hany]

/-- Dict-assignment semantics of `setParam`: every entry under a different
key is preserved unchanged. -/
theorem setParam_preserves (q : List (String × List String)) (param : String)
    (vs : List String) :
    ∀ g ∈ q, g.1 ≠ param → g ∈ setParam q param vs := by
  intro g hg hne
  rw [setParam]
  by_cases hany : q.any (fun g => g.1 == param)
  · simp only [hany, if_true]
    refine List.mem_map.mpr ⟨g, hg, ?_⟩
    simp [hne]
  · simp only [hany, Bool.false_eq_true, if_false]
    exact List.mem_append_left _ hg

/-- Singleton-flatMap form of the pagination loop: appending one URL per page
is a map over the page range. -/
theorem flatMap_singleton_eq_map {α β : Type} (f : α → β) (l : List α) :
    (l.flatMap fun a => [f a]) = l.map f := by
  induction l with
  | nil => rfl
  | cons a l ih => simp [ih]

/-- C4 counterexample: a query parameter of the base URL with a blank value
is NOT preserved by the pagination planner.  The base URL
`https://x/a?x=&y=1` carries the parameter `x`; `parse_qs` is called with its
default `keep_blank_values=False`, which drops `x=`, so every generated URL
loses it — here the single planned URL is `https://x/a?y=1&page=1`, with no
`x` parameter in any reading of its query. -/
theorem pagination_blank_param_dropped :
    "x" ∈ rawQueryKeys (urlparse "https://x/a?x=&y=1").query
    ∧ get_pagination_urls (some ⟨"query", 1, 1, "page"⟩) "https://x/a?x=&y=1" =
        ["https://x/a?y=1&page=1"]
    ∧ "x" ∉ rawQueryKeys (urlparse "https://x/a?y=1&page=1").query
    ∧ "x" ∉ (parse_qs (urlparse "https://x/a?y=1&page=1").query).map Prod.fst := by
  decide

/-- C4 as amended: with `startPage ≤ endPage`, the planned URL list has
length `endPage − startPage + 1` in both modes; with the pagination spec
absent the list is exactly `[baseUrl]`.  In query mode the i-th URL is built
from the base URL's parsed components with the named parameter set/replaced
to `startPage+i`, and every other query parameter of the base URL that
survives query parsing — i.e. every parameter with a non-blank value;
blank-valued parameters are dropped by `parse_qs`'s defaults — is preserved
in the rebuilt query.  In path mode the i-th URL is the base URL with all
trailing slashes stripped followed by `/page/{startPage+i}`. -/
theorem pagination_plan_spec (cfg : PaginationConfig) (base : String)
    (hse : cfg.startPage ≤ cfg.endPage) :
    (∀ b : String, get_pagination_urls none b = [b])
    ∧ (cfg.type = "query" →
        (get_pagination_urls (some cfg) base).length = cfg.endPage - cfg.startPage + 1
        ∧ ∀ i, i < cfg.endPage - cfg.startPage + 1 →
            (get_pagination_urls (some cfg) base)[i]? =
              some (queryPageUrl base cfg.paramName (cfg.startPage + i))
            ∧ (cfg.paramName, [toString (cfg.startPage + i)]) ∈
                setParam (parse_qs (urlparse base).query) cfg.paramName
                  [toString (cfg.startPage + i)]
            ∧ ∀ g ∈ parse_qs (urlparse base).query, g.1 ≠ cfg.paramName →
                g ∈ setParam (parse_qs (urlparse base).query) cfg.paramName
                  [toString (cfg.startPage + i)])
    ∧ (cfg.type = "path" →
        (get_pagination_urls (some cfg) base).length = cfg.endPage - cfg.startPage + 1
        ∧ ∀ i, i < cfg.endPage - cfg.startPage + 1 →
            (get_pagination_urls (some cfg) base)[i]? =
              some (rstripSlash base ++ "/page/" ++ toString (cfg.startPage + i))) := by
  have hlen : cfg.endPage + 1 - cfg.startPage = cfg.endPage - cfg.startPage + 1 := by omega
  refine ⟨fun b => rfl, ?_, ?_⟩
  · intro htype
    have hurls : get_pagination_urls (some cfg) base =
        (List.range' cfg.startPage (cfg.endPage + 1 - cfg.startPage)).map
          (queryPageUrl base cfg.paramName) := by
      rw [get_pagination_urls]
      rw [show (fun page => if cfg.type = "query"
            then [queryPageUrl base cfg.paramName page]
            else if cfg.type = "path" then [pathPageUrl base page] else []) =
          (fun page => [queryPageUrl base cfg.paramName page]) from by
        funext page; simp [htype]]
      exact flatMap_singleton_eq_map _ _
    constructor
    · rw [hurls]
      simp [List.length_range', hlen]
    · intro i hi
      refine ⟨?_, setParam_self_mem _ _ _, setParam_preserves _ _ _⟩
      rw [hurls]
      simp [List.getElem?_map, List.getElem?_range', hlen, hi]
  · intro htype
    have hurls : get_pagination_urls (some cfg) base =
        (List.range' cfg.startPage (cfg.endPage + 1 - cfg.startPage)).map
          (pathPageUrl base) := by
      rw [get_pagination_urls]
      rw [show (fun page => if cfg.type = "query"
            then [queryPageUrl base cfg.paramName page]
            else if cfg.type = "path" then [pathPageUrl base page] else []) =
          (fun page => [pathPageUrl base page]) from by
        funext page
        have hnq : cfg.type ≠ "query" := by rw [htype]; decide
        simp [htype, hnq]]
      exact flatMap_singleton_eq_map _ _
    constructor
    · rw [hurls]
      simp [List.length_range', hlen]
    · intro i hi
      rw [hurls]
      simp [List.getElem?_map, List.getElem?_range', hlen, hi, pathPageUrl]

/-- Witness for C4 at the specification's own test vector: planning
`https://x/a?x=1` over pages 1..3 in query mode yields exactly three URLs
with `page=1,2,3` and `x=1` preserved in each, and a path-mode plan appends
`/page/{n}` to the slash-stripped base. -/
theorem pagination_plan_spec_witness :
    get_pagination_urls (some ⟨"query", 1, 3, "page"⟩) "https://x/a?x=1" =
      ["https://x/a?x=1&page=1", "https://x/a?x=1&page=2", "https://x/a?x=1&page=3"]
    ∧ (get_pagination_urls (some ⟨"query", 1, 3, "page"⟩) "https://x/a?x=1").length = 3
    ∧ (get_pagination_urls (some ⟨"path", 2, 3, "p"⟩) "https://x/a/")[0]? =
        some "https://x/a/page/2" := by
  refine ⟨by decide, ?_, ?_⟩
  · have h := (pagination_plan_spec ⟨"query", 1, 3, "page"⟩ "https://x/a?x=1"
      (by decide)).2.1 rfl
    simpa using h.1
  · have h := ((pagination_plan_spec ⟨"path", 2, 3, "p"⟩ "https://x/a/"
      (by decide)).2.2 rfl).2 0 (by decide)
    simpa using h

end Scraper
